import Mathlib

/-!
Verification of the cryptographic core of the `image2106` WhatsApp Flow
webhook handler (`src/api/webhook.js` and its duplicated variants).

The repository's own code is the wiring around platform primitives
(Node `webcrypto` RSA-OAEP and AES-GCM, `crypto` HMAC/SHA-256/AES-CBC,
`Buffer` base64, `JSON`).  Those library primitives are external to the
repository, so they are modelled as opaque function parameters gathered
in `EnvelopePrims` and `MediaPrims`; the definitions below embed the
repository's control flow around them, statement by statement.
-/

namespace Webhook

/-- A byte, as held in the Node `Buffer` / `Uint8Array` values of the handler. -/
abbrev Byte := Fin 256

/-- The JS expression `~byte & 0xFF` from `encryptResponse`: for a byte value
`0 ≤ b ≤ 255`, two's-complement NOT masked to 8 bits is `255 - b`. -/
def flipByte (b : Byte) : Byte := ⟨255 - b.val, by omega⟩

/-- `new Uint8Array(initialVectorBuffer.map((byte) => ~byte & 0xFF))` from
`encryptResponse` (webhook.js line 738): the response nonce. -/
def flipNonce (n : List Byte) : List Byte := n.map flipByte

/-- XOR a single bit (bit `k % 8`) into a byte; used to state tamper-detection
properties about single-bit flips. -/
def xorBit (b : Byte) (k : Nat) : Byte :=
  ⟨b.val ^^^ (1 <<< (k % 8)), by
    have h1 : 1 <<< (k % 8) < 2 ^ 8 := by
      rw [Nat.shiftLeft_eq, Nat.one_mul]
      exact Nat.pow_lt_pow_right (by omega) (Nat.mod_lt _ (by omega))
    have h2 : b.val < 2 ^ 8 := b.isLt
    exact Nat.xor_lt_two_pow h2 h1⟩

/-- Flip bit `k % 8` of the byte at index `j` of a byte string (identity when
`j` is out of range). -/
def flipBitAt (bs : List Byte) (j k : Nat) : List Byte :=
  match bs[j]? with
  | none => bs
  | some b => bs.set j (xorBit b k)

/-- JS truthiness test `!field` on a destructured request-body field: the field
is falsy when absent (`undefined`) or the empty string. -/
def strFalsy : Option String → Bool
  | none => true
  | some s => s == ""

/-- The inbound wire envelope, a JSON body with three base64 text fields, any
of which may be absent. -/
structure Envelope where
  encrypted_aes_key : Option String
  encrypted_flow_data : Option String
  initial_vector : Option String
deriving DecidableEq

/-- `if (!encrypted_aes_key || !encrypted_flow_data || !initial_vector)` from
`decryptRequest` (webhook.js line 682). -/
def envMissing (body : Envelope) : Bool :=
  strFalsy body.encrypted_aes_key || strFalsy body.encrypted_flow_data ||
    strFalsy body.initial_vector

/-- Outcome classification of `decryptRequest`: the bare `Error` thrown before
the `try` block for missing fields, versus the wrapped
`Meta decryption failed: ...` error thrown by the `catch` for any failure of a
cryptographic step (the string names the failing step). -/
inductive DecryptErr where
  | malformedEnvelope : DecryptErr
  | decryptionError : String → DecryptErr
deriving DecidableEq

/-- The external platform primitives used by the envelope code, opaque to this
repository: `Buffer` base64 codec, `webcrypto` RSA-OAEP decryption with the
process private key, `webcrypto` AES-GCM (128-bit tag appended to the
ciphertext, so encrypt is total and decrypt is fallible), and JSON
serialization composed with the UTF-8 codec over a payload type `J`. -/
structure EnvelopePrims (J : Type) where
  b64dec : String → List Byte
  b64enc : List Byte → String
  rsaDecrypt : List Byte → Option (List Byte)
  gcmEncrypt : List Byte → List Byte → List Byte → List Byte
  gcmDecrypt : List Byte → List Byte → List Byte → Option (List Byte)
  stringify : J → List Byte
  jsonParse : List Byte → Option J

/-- The AES stage of `decryptRequest` (webhook.js lines 701-717): import the
unwrapped key bytes as a raw AES key, AES-GCM-decrypt the flow data with the
initial vector, UTF-8-decode and JSON-parse.  `decryptRequest` itself performs
no length validation on the unwrapped key; the WebCrypto raw AES key import it
calls accepts exactly 128-, 192- or 256-bit keys and raises otherwise, which
the surrounding `catch` wraps as a decryption error. -/
def decryptRequestAes {J : Type} (P : EnvelopePrims J)
    (aesKeyBuffer iv flowData : List Byte) :
    Except DecryptErr (J × List Byte × List Byte) :=
  if aesKeyBuffer.length = 16 ∨ aesKeyBuffer.length = 24 ∨ aesKeyBuffer.length = 32 then
    match P.gcmDecrypt aesKeyBuffer iv flowData with
    | none => .error (.decryptionError "aes-gcm")
    | some plain =>
      match P.jsonParse plain with
      | none => .error (.decryptionError "json")
      | some body => .ok (body, aesKeyBuffer, iv)
  else .error (.decryptionError "aes-key-import")

/-- `decryptRequest` (webhook.js lines 674-728): require the three envelope
fields truthy, base64-decode them, RSA-OAEP-unwrap the AES key, then run the
AES-GCM + JSON stage; returns `(decryptedBody, aesKeyBuffer,
initialVectorBuffer)`. -/
def decryptRequest {J : Type} (P : EnvelopePrims J) (body : Envelope) :
    Except DecryptErr (J × List Byte × List Byte) :=
  if envMissing body then .error .malformedEnvelope
  else
    match P.rsaDecrypt (P.b64dec (body.encrypted_aes_key.getD "")) with
    | none => .error (.decryptionError "rsa-oaep")
    | some aesKeyBuffer =>
      decryptRequestAes P aesKeyBuffer
        (P.b64dec (body.initial_vector.getD ""))
        (P.b64dec (body.encrypted_flow_data.getD ""))

/-- `encryptResponse` (webhook.js lines 730-770): flip the request nonce,
serialize the response payload, AES-GCM-encrypt under the retained key and the
flipped nonce, base64-encode; the base64 string is the whole wire response. -/
def encryptResponse {J : Type} (P : EnvelopePrims J) (response : J)
    (aesKeyBuffer initialVectorBuffer : List Byte) : String :=
  P.b64enc (P.gcmEncrypt aesKeyBuffer (flipNonce initialVectorBuffer)
    (P.stringify response))

/-- Outcome classification of `decryptWhatsAppImage` (webhook.js lines
772-855): each constructor is one of the `throw new Error(...)` sites of the
function body (CDN fetch, an external effect, is outside the model: the
function below receives the fetched bytes). -/
inductive MediaErr where
  | badFieldLength : String → MediaErr
  | tooSmall : MediaErr
  | encHashMismatch : MediaErr
  | hmacFailed : MediaErr
  | badCtLength : MediaErr
  | aesFailed : MediaErr
deriving DecidableEq

/-- The external `crypto` primitives used by the media code, opaque to this
repository: `createHmac('sha256', key).update(msg).digest()` and
`createHash('sha256').update(bytes).digest('base64')`. -/
structure MediaPrims where
  hmacSha256 : List Byte → List Byte → List Byte
  sha256b64 : List Byte → String

/-- The MAC step of `decryptWhatsAppImage` (webhook.js lines 814-824): split
the blob into `cipherText = encBuf[0 : len-10]` and the 10-byte trailer
`macTrailer = encBuf[len-10 : len]`, compute
`HMAC-SHA256(macKey, iv ‖ cipherText)` and compare its first 10 bytes to the
trailer; on match, yield the trailer-stripped ciphertext. -/
def macCheck (M : MediaPrims) (macKeyBuf ivBuf encBuf : List Byte) :
    Except MediaErr (List Byte) :=
  if (M.hmacSha256 macKeyBuf
        (ivBuf ++ encBuf.take (encBuf.length - 10))).take 10
      = encBuf.drop (encBuf.length - 10) then
    .ok (encBuf.take (encBuf.length - 10))
  else .error .hmacFailed

/-- The authentication half of `decryptWhatsAppImage` (webhook.js lines
789-824), in source order: exact-length validation of the three metadata
fields, the `encBuf.length <= 10` rejection, the optional `encrypted_hash`
comparison (a truthy `encrypted_hash` that mismatches the computed SHA-256 of
the whole blob throws), then the trailer split and HMAC comparison. -/
def mediaAuthenticate (M : MediaPrims) (keyBuf macKeyBuf ivBuf : List Byte)
    (encryptedHash : Option String) (encBuf : List Byte) :
    Except MediaErr (List Byte) :=
  if keyBuf.length ≠ 32 then .error (.badFieldLength "encryption_key")
  else if macKeyBuf.length ≠ 32 then .error (.badFieldLength "hmac_key")
  else if ivBuf.length ≠ 16 then .error (.badFieldLength "iv")
  else if encBuf.length ≤ 10 then .error .tooSmall
  else if strFalsy encryptedHash then macCheck M macKeyBuf ivBuf encBuf
  else if M.sha256b64 encBuf = encryptedHash.getD "" then
    macCheck M macKeyBuf ivBuf encBuf
  else .error .encHashMismatch

/-- The decryption half of `decryptWhatsAppImage` (webhook.js lines 826-838):
reject a ciphertext whose length is not a multiple of 16, then AES-256-CBC
decrypt with PKCS#7 unpadding (`createDecipheriv` + `final`, an external
primitive, fallible on bad padding). -/
def mediaDecrypt (cbcDecrypt : List Byte → List Byte → List Byte → Option (List Byte))
    (keyBuf ivBuf cipherText : List Byte) : Except MediaErr (List Byte) :=
  if cipherText.length % 16 ≠ 0 then .error .badCtLength
  else
    match cbcDecrypt keyBuf ivBuf cipherText with
    | none => .error .aesFailed
    | some decrypted => .ok decrypted

/-- `decryptWhatsAppImage` (webhook.js lines 772-855) after the CDN fetch:
authenticate, then decrypt.  The trailing `plaintext_hash` comparison of the
source only `console.warn`s on mismatch and never alters the result, so the
`plaintextHash` argument does not influence the outcome. -/
def decryptWhatsAppImage (M : MediaPrims)
    (cbcDecrypt : List Byte → List Byte → List Byte → Option (List Byte))
    (keyBuf macKeyBuf ivBuf : List Byte)
    (encryptedHash plaintextHash : Option String) (encBuf : List Byte) :
    Except MediaErr (List Byte) :=
  match mediaAuthenticate M keyBuf macKeyBuf ivBuf encryptedHash encBuf with
  | .error e => .error e
  | .ok cipherText =>
    let _ := plaintextHash
    mediaDecrypt cbcDecrypt keyBuf ivBuf cipherText

/-! Concrete instances of the opaque platform primitives, used to evaluate the
theorems below on concrete inputs.  The theorems constrain the primitives only
through explicit hypotheses (or hold for every choice of primitives), so any
instance satisfying those hypotheses at the chosen inputs serves. -/

/-- A one-field JSON object with a numeric value: enough to express the
specification scenario payload. -/
structure ToyJson where
  key : String
  value : Nat
deriving DecidableEq

/-- Bytes of a string whose characters are all below code point 256. -/
def strBytes (s : String) : List Byte :=
  s.data.map fun c => ⟨c.toNat % 256, Nat.mod_lt _ (by omega)⟩

/-- String whose characters are the given bytes. -/
def bytesStr (bs : List Byte) : String :=
  String.mk (bs.map fun b => Char.ofNat b.val)

/-- UTF-8 bytes of the JSON text of a one-field object. -/
def toyStringify (j : ToyJson) : List Byte :=
  strBytes ("\x7b\"" ++ j.key ++ "\":" ++ toString j.value ++ "\x7d")

/-- Recognizer for the serialized scenario payload; stands in for the external
JSON parser, which the theorems constrain only pointwise. -/
def toyParse (bs : List Byte) : Option ToyJson :=
  if bs = toyStringify ⟨"a", 1⟩ then some ⟨"a", 1⟩ else none

/-- A 16-byte tag, mimicking the AEAD framing that appends a 128-bit tag. -/
def toyTag : List Byte := List.replicate 16 (0 : Byte)

def toyGcmEnc (_key _iv p : List Byte) : List Byte := p ++ toyTag

def toyGcmDec (_key _iv c : List Byte) : Option (List Byte) :=
  if 16 ≤ c.length then some (c.take (c.length - 16)) else none

/-- Concrete envelope primitives over `ToyJson` payloads. -/
def toyPrims : EnvelopePrims ToyJson where
  b64dec := strBytes
  b64enc := bytesStr
  rsaDecrypt := fun bs => some bs
  gcmEncrypt := toyGcmEnc
  gcmDecrypt := toyGcmDec
  stringify := toyStringify
  jsonParse := toyParse

def toyPayload : ToyJson := ⟨"a", 1⟩
def toyKey : List Byte := List.replicate 32 (7 : Byte)
def toyKey16 : List Byte := List.replicate 16 (5 : Byte)
def toyKey7 : List Byte := List.replicate 7 (9 : Byte)
def toyNonce : List Byte := List.replicate 16 (0 : Byte)

/-- A 32-byte keyed digest depending on the message length only; stands in for
the external HMAC-SHA256, which the theorems constrain only pointwise. -/
def toyHmac (_key msg : List Byte) : List Byte :=
  List.replicate 32 ⟨msg.length % 256, Nat.mod_lt _ (by omega)⟩

/-- A base64 digest stub depending on the input length only. -/
def toySha (bs : List Byte) : String := toString bs.length

def toyMedia : MediaPrims := ⟨toyHmac, toySha⟩

def toyCbc (_key _iv ct : List Byte) : Option (List Byte) := some ct

/-- A second, everywhere-failing decryptor, to witness that rejected blobs
produce the same outcome under any decryptor. -/
def toyCbcNone (_key _iv _ct : List Byte) : Option (List Byte) := none

def toyMediaKey : List Byte := List.replicate 32 (6 : Byte)
def toyMacKey : List Byte := List.replicate 32 (4 : Byte)
def toyIv : List Byte := List.replicate 16 (2 : Byte)

/-- A 16-byte ciphertext. -/
def toyCt : List Byte := List.replicate 16 (1 : Byte)

/-- A MAC-valid 26-byte blob: `toyHmac` over the 32-byte `iv ‖ ct` is 32
copies of byte 32, so the valid trailer is 10 copies of byte 32. -/
def toyBlobGood : List Byte := toyCt ++ List.replicate 10 (32 : Byte)

/-- A MAC-invalid 26-byte blob: wrong trailer. -/
def toyBlobBad : List Byte := toyCt ++ List.replicate 10 (3 : Byte)

/-- A MAC-valid 27-byte blob whose ciphertext length is 17: `toyHmac` over the
33-byte `iv ‖ ct` is 32 copies of byte 33. -/
def toyBlob17 : List Byte :=
  List.replicate 17 (1 : Byte) ++ List.replicate 10 (33 : Byte)

/-- A 9-byte blob, below the minimum length. -/
def toyBlob9 : List Byte := List.replicate 9 (1 : Byte)

/-! Helper lemmas. -/

theorem flipByte_flipByte (b : Byte) : flipByte (flipByte b) = b := by
  apply Fin.ext
  have := b.isLt
  simp only [flipByte]
  omega

theorem flipByte_ne (b : Byte) : flipByte b ≠ b := by
  intro h
  have hv := congrArg Fin.val h
  simp only [flipByte] at hv
  omega

/-- C10: the byte-wise complement transform deriving the response nonce is an
involution, and it changes every byte, so the derived nonce differs from a
non-empty input at every position, while the zero-length nonce maps to itself
(equal to its input). -/
theorem flipNonce_algebra (n : List Byte) :
    flipNonce (flipNonce n) = n ∧
    (∀ i, i < n.length → (flipNonce n)[i]? ≠ n[i]?) ∧
    flipNonce ([] : List Byte) = [] := by
  refine ⟨?_, ?_, rfl⟩
  · simp [flipNonce, List.map_map, Function.comp_def, flipByte_flipByte]
  · intro i hi h
    rw [flipNonce, List.getElem?_map, List.getElem?_eq_getElem hi] at h
    simp only [Option.map_some', Option.some.injEq] at h
    exact flipByte_ne _ h

/-- Witness for C10 at the concrete nonce `[0, 255]`, position 0. -/
theorem flipNonce_algebra_witness :
    flipNonce (flipNonce [(0 : Byte), 255]) = [(0 : Byte), 255] ∧
    (flipNonce [(0 : Byte), 255])[0]? ≠ ([(0 : Byte), 255])[0]? ∧
    flipNonce ([] : List Byte) = [] :=
  ⟨(flipNonce_algebra [(0 : Byte), 255]).1,
   (flipNonce_algebra [(0 : Byte), 255]).2.1 0 (by decide),
   (flipNonce_algebra [(0 : Byte), 255]).2.2⟩

/-- C2: `encryptResponse` derives the response nonce by bitwise NOT of every
byte of the request nonce, yielding a byte string of the same length that
never equals the request nonce (request nonces, 16-byte initialization
vectors, are non-empty). -/
theorem responseNonce_spec (n : List Byte) (hn : n ≠ []) :
    (flipNonce n).length = n.length ∧ flipNonce n ≠ n := by
  refine ⟨by simp [flipNonce], ?_⟩
  match n, hn with
  | b :: t, _ =>
    intro h
    rw [flipNonce, List.map_cons] at h
    exact flipByte_ne b (List.cons.injEq _ _ _ _ ▸ h).1

/-- Witness for C2 at the 16-byte zero nonce. -/
theorem responseNonce_spec_witness :
    (flipNonce (List.replicate 16 (0 : Byte))).length
        = (List.replicate 16 (0 : Byte)).length ∧
    flipNonce (List.replicate 16 (0 : Byte)) ≠ List.replicate 16 (0 : Byte) :=
  responseNonce_spec (List.replicate 16 (0 : Byte)) (by decide)

theorem decryptRequestAes_error {J : Type} (P : EnvelopePrims J)
    (kb iv fd : List Byte) (e : DecryptErr)
    (h : decryptRequestAes P kb iv fd = .error e) : ∃ s, e = .decryptionError s := by
  unfold decryptRequestAes at h
  split at h
  · split at h
    · simp only [Except.error.injEq] at h
      exact ⟨_, h.symm⟩
    · split at h
      · simp only [Except.error.injEq] at h
        exact ⟨_, h.symm⟩
      · simp at h
  · simp only [Except.error.injEq] at h
    exact ⟨_, h.symm⟩

theorem decryptRequest_error_of_present {J : Type} (P : EnvelopePrims J)
    (body : Envelope) (hm : envMissing body = false) (e : DecryptErr)
    (h : decryptRequest P body = .error e) : ∃ s, e = .decryptionError s := by
  unfold decryptRequest at h
  rw [hm] at h
  simp only [Bool.false_eq_true, if_false] at h
  split at h
  · simp only [Except.error.injEq] at h
    exact ⟨_, h.symm⟩
  · exact decryptRequestAes_error P _ _ _ e h

/-- C7: `decryptRequest` raises the bare malformed-envelope error if and only
if one of the three envelope fields is missing (JS-falsy), before any
cryptographic processing (when a field is missing the outcome is the same for
every choice of primitives); every later failure surfaces as a wrapped
decryption error instead. -/
theorem decryptRequest_malformed_iff {J : Type} (P : EnvelopePrims J)
    (body : Envelope) :
    (decryptRequest P body = .error .malformedEnvelope ↔ envMissing body = true) ∧
    (∀ s, decryptRequest P body = .error (.decryptionError s) →
      envMissing body = false) ∧
    (envMissing body = true → ∀ Q : EnvelopePrims J,
      decryptRequest Q body = .error .malformedEnvelope) := by
  refine ⟨⟨?_, ?_⟩, ?_, ?_⟩
  · intro h
    cases hb : envMissing body with
    | true => rfl
    | false =>
      rcases decryptRequest_error_of_present P body hb _ h with ⟨s, hs⟩
      simp at hs
  · intro hb
    simp [decryptRequest, hb]
  · intro s h
    cases hb : envMissing body with
    | true =>
      unfold decryptRequest at h
      rw [hb] at h
      simp at h
    | false => rfl
  · intro hb Q
    simp [decryptRequest, hb]

/-- Witness for C7: an envelope missing its key field is rejected as
malformed; one with all fields present but an undecryptable key yields a
wrapped decryption error. -/
theorem decryptRequest_malformed_iff_witness :
    decryptRequest toyPrims ⟨none, some "x", some "y"⟩
      = .error .malformedEnvelope :=
  (decryptRequest_malformed_iff toyPrims ⟨none, some "x", some "y"⟩).1.2
    (by decide)

/-- C1: for every payload, 32-byte symmetric key and nonce, encrypting with
`encryptResponse` under the key and nonce and decrypting the resulting
envelope with `decryptRequest` under the same key and the byte-wise
complement of the nonce returns the payload (together with the key and the
complemented nonce).  The hypotheses are the defining laws of the external
primitives (base64, RSA-OAEP, AES-GCM, JSON), stated pointwise at the values
used. -/
theorem envelope_roundtrip {J : Type} (P : EnvelopePrims J) (payload : J)
    (K N : List Byte) (wrappedB64 ivB64 : String)
    (hWrap : wrappedB64 ≠ "") (hIv : ivB64 ≠ "")
    (hResp : encryptResponse P payload K N ≠ "")
    (hRsa : P.rsaDecrypt (P.b64dec wrappedB64) = some K)
    (hKlen : K.length = 32)
    (hIvDec : P.b64dec ivB64 = flipNonce N)
    (hB64 : P.b64dec (encryptResponse P payload K N)
        = P.gcmEncrypt K (flipNonce N) (P.stringify payload))
    (hGcm : P.gcmDecrypt K (flipNonce N)
          (P.gcmEncrypt K (flipNonce N) (P.stringify payload))
        = some (P.stringify payload))
    (hJson : P.jsonParse (P.stringify payload) = some payload) :
    decryptRequest P
        ⟨some wrappedB64, some (encryptResponse P payload K N), some ivB64⟩
      = .ok (payload, K, flipNonce N) := by
  have hm : envMissing
      ⟨some wrappedB64, some (encryptResponse P payload K N), some ivB64⟩
      = false := by
    simp [envMissing, strFalsy, hWrap, hIv, hResp]
  unfold decryptRequest
  rw [hm]
  simp only [Bool.false_eq_true, if_false, Option.getD_some]
  rw [hRsa]
  simp only
  rw [hIvDec, hB64]
  unfold decryptRequestAes
  rw [if_pos (Or.inr (Or.inr hKlen)), hGcm]
  simp only
  rw [hJson]

/-- Witness for C1, the specification scenario: nonce 16 zero bytes, a fixed
32-byte key, payload the object with field "a" mapped to 1. -/
theorem envelope_roundtrip_witness :
    decryptRequest toyPrims
        ⟨some (bytesStr toyKey),
         some (encryptResponse toyPrims toyPayload toyKey toyNonce),
         some (bytesStr (flipNonce toyNonce))⟩
      = .ok (toyPayload, toyKey, flipNonce toyNonce) :=
  envelope_roundtrip toyPrims toyPayload toyKey toyNonce
    (bytesStr toyKey) (bytesStr (flipNonce toyNonce))
    (by decide) (by decide) (by decide) (by decide) (by decide) (by decide)
    (by decide) (by decide) (by decide)

/-- C6 counterexample: an envelope whose wrapped key RSA-decrypts to 16 bytes
(a length other than 32) is not rejected: the AES key import accepts it and
the whole decryption succeeds. -/
theorem unwrappedKey16_succeeds :
    decryptRequest toyPrims
        ⟨some (bytesStr toyKey16),
         some (encryptResponse toyPrims toyPayload toyKey16 toyNonce),
         some (bytesStr (flipNonce toyNonce))⟩
      = .ok (toyPayload, toyKey16, flipNonce toyNonce) ∧
    toyPrims.rsaDecrypt (toyPrims.b64dec (bytesStr toyKey16)) = some toyKey16 ∧
    toyKey16.length = 16 := by
  refine ⟨by rfl, by decide, by decide⟩

/-- C6 amended: `decryptRequest` performs no exact-32-byte validation of the
unwrapped symmetric key; with all fields present and the unwrap yielding
`kb`, the call always proceeds to the AES import/GCM stage, and it fails
there exactly when the length of `kb` is not one of the raw AES key lengths
16, 24, 32 (surfacing as a wrapped decryption error, not before). -/
theorem unwrappedKey_length_spec {J : Type} (P : EnvelopePrims J)
    (body : Envelope) (kb : List Byte) (hm : envMissing body = false)
    (hRsa : P.rsaDecrypt (P.b64dec (body.encrypted_aes_key.getD ""))
      = some kb) :
    decryptRequest P body
      = decryptRequestAes P kb (P.b64dec (body.initial_vector.getD ""))
          (P.b64dec (body.encrypted_flow_data.getD "")) ∧
    (kb.length ≠ 16 → kb.length ≠ 24 → kb.length ≠ 32 →
      decryptRequest P body = .error (.decryptionError "aes-key-import")) := by
  have h1 : decryptRequest P body
      = decryptRequestAes P kb (P.b64dec (body.initial_vector.getD ""))
          (P.b64dec (body.encrypted_flow_data.getD "")) := by
    unfold decryptRequest
    rw [hm]
    simp only [Bool.false_eq_true, if_false]
    rw [hRsa]
  refine ⟨h1, fun h16 h24 h32 => ?_⟩
  rw [h1]
  unfold decryptRequestAes
  rw [if_neg (by simp [h16, h24, h32])]

/-- Witness for the amended C6 at a 7-byte unwrapped key: the call reaches the
AES stage and fails at key import. -/
theorem unwrappedKey_length_spec_witness :
    (decryptRequest toyPrims ⟨some (bytesStr toyKey7), some "x", some "y"⟩
        = decryptRequestAes toyPrims toyKey7 (toyPrims.b64dec "y")
            (toyPrims.b64dec "x") ∧
      (toyKey7.length ≠ 16 → toyKey7.length ≠ 24 → toyKey7.length ≠ 32 →
        decryptRequest toyPrims ⟨some (bytesStr toyKey7), some "x", some "y"⟩
          = .error (.decryptionError "aes-key-import"))) :=
  unwrappedKey_length_spec toyPrims
    ⟨some (bytesStr toyKey7), some "x", some "y"⟩ toyKey7
    (by decide) (by decide)

/-! Media-side helper lemmas. -/

theorem mediaAuthenticate_reduce (M : MediaPrims)
    (keyBuf macKeyBuf ivBuf encBuf : List Byte)
    (hk : keyBuf.length = 32) (hmk : macKeyBuf.length = 32)
    (hiv : ivBuf.length = 16) (hlen : 10 < encBuf.length) :
    mediaAuthenticate M keyBuf macKeyBuf ivBuf none encBuf
      = macCheck M macKeyBuf ivBuf encBuf := by
  unfold mediaAuthenticate
  rw [if_neg (by omega), if_neg (by omega), if_neg (by omega),
    if_neg (by omega)]
  simp [strFalsy]

theorem decryptWhatsAppImage_macFail (M : MediaPrims)
    (cbc : List Byte → List Byte → List Byte → Option (List Byte))
    (keyBuf macKeyBuf ivBuf : List Byte) (ph : Option String)
    (encBuf : List Byte)
    (hk : keyBuf.length = 32) (hmk : macKeyBuf.length = 32)
    (hiv : ivBuf.length = 16) (hlen : 10 < encBuf.length)
    (hne : (M.hmacSha256 macKeyBuf
          (ivBuf ++ encBuf.take (encBuf.length - 10))).take 10
        ≠ encBuf.drop (encBuf.length - 10)) :
    decryptWhatsAppImage M cbc keyBuf macKeyBuf ivBuf none ph encBuf
      = .error .hmacFailed := by
  unfold decryptWhatsAppImage
  rw [mediaAuthenticate_reduce M keyBuf macKeyBuf ivBuf encBuf hk hmk hiv hlen]
  unfold macCheck
  rw [if_neg hne]

theorem xorBit_ne (b : Byte) (k : Nat) : xorBit b k ≠ b := by
  intro h
  have hv := congrArg Fin.val h
  simp only [xorBit] at hv
  have h2 : (1 <<< (k % 8)) = 0 := by
    have h3 := congrArg (fun x => b.val ^^^ x) hv
    simpa [← Nat.xor_assoc, Nat.xor_self, Nat.zero_xor] using h3
  rw [Nat.shiftLeft_eq, Nat.one_mul] at h2
  have hpos : 0 < 2 ^ (k % 8) := by positivity
  omega

theorem flipBitAt_length (bs : List Byte) (j k : Nat) :
    (flipBitAt bs j k).length = bs.length := by
  unfold flipBitAt
  split
  · rfl
  · simp [List.length_set]

theorem flipBitAt_eq_set (bs : List Byte) (j k : Nat) (hj : j < bs.length) :
    flipBitAt bs j k = bs.set j (xorBit bs[j] k) := by
  unfold flipBitAt
  rw [List.getElem?_eq_getElem hj]

theorem take_set_of_le {α : Type} (a : α) (l : List α) (j n : Nat)
    (h : n ≤ j) : (l.set j a).take n = l.take n := by
  induction l generalizing j n with
  | nil => rfl
  | cons x t ih =>
    cases j with
    | zero =>
      have hn : n = 0 := by omega
      subst hn
      rfl
    | succ j =>
      cases n with
      | zero => rfl
      | succ n =>
        show (x :: t.set j a).take (n + 1) = (x :: t).take (n + 1)
        rw [List.take_succ_cons, List.take_succ_cons, ih j n (by omega)]

theorem drop_set_of_le {α : Type} (a : α) (l : List α) (j n : Nat)
    (h : n ≤ j) : (l.set j a).drop n = (l.drop n).set (j - n) a := by
  induction l generalizing j n with
  | nil => simp
  | cons x t ih =>
    cases n with
    | zero => simp
    | succ n =>
      cases j with
      | zero => omega
      | succ j =>
        show (x :: t.set j a).drop (n + 1)
            = ((x :: t).drop (n + 1)).set (j + 1 - (n + 1)) a
        rw [List.drop_succ_cons, List.drop_succ_cons, Nat.succ_sub_succ]
        exact ih j n (by omega)

theorem set_ne_of_ne {α : Type} (l : List α) (j : Nat) (b : α)
    (hj : j < l.length) (hb : b ≠ l[j]) : l.set j b ≠ l := by
  intro h
  have h2 : (l.set j b)[j]? = l[j]? := by rw [h]
  rw [List.getElem?_set_eq_of_lt b hj] at h2
  rw [List.getElem?_eq_getElem hj] at h2
  exact hb (Option.some_inj.mp h2)

/-- C3: for every fetched blob longer than 10 bytes (with well-formed
metadata and no optional hash supplied), the authenticator splits off the
last 10 bytes as the MAC trailer, computes HMAC-SHA256 keyed by the MAC key
over the 16-byte nonce concatenated with the remaining ciphertext, and
accepts (yielding the ciphertext) exactly when the first 10 bytes of that
HMAC equal the trailer; on mismatch it rejects with the MAC error. -/
theorem mediaAuthenticate_mac_spec (M : MediaPrims)
    (keyBuf macKeyBuf ivBuf encBuf : List Byte)
    (hk : keyBuf.length = 32) (hmk : macKeyBuf.length = 32)
    (hiv : ivBuf.length = 16) (hlen : 10 < encBuf.length) :
    (mediaAuthenticate M keyBuf macKeyBuf ivBuf none encBuf
        = .ok (encBuf.take (encBuf.length - 10))
      ↔ (M.hmacSha256 macKeyBuf
            (ivBuf ++ encBuf.take (encBuf.length - 10))).take 10
          = encBuf.drop (encBuf.length - 10)) ∧
    ((M.hmacSha256 macKeyBuf
          (ivBuf ++ encBuf.take (encBuf.length - 10))).take 10
        ≠ encBuf.drop (encBuf.length - 10)
      → mediaAuthenticate M keyBuf macKeyBuf ivBuf none encBuf
          = .error .hmacFailed) := by
  rw [mediaAuthenticate_reduce M keyBuf macKeyBuf ivBuf encBuf hk hmk hiv hlen]
  unfold macCheck
  refine ⟨⟨?_, ?_⟩, ?_⟩
  · intro h
    by_contra hne
    rw [if_neg hne] at h
    simp at h
  · intro h
    rw [if_pos h]
  · intro hne
    rw [if_neg hne]

/-- Witness for C3: a concrete MAC-valid 26-byte blob is accepted, and the
same blob with a corrupted trailer is rejected. -/
theorem mediaAuthenticate_mac_spec_witness :
    mediaAuthenticate toyMedia toyMediaKey toyMacKey toyIv none toyBlobGood
      = .ok (toyBlobGood.take (toyBlobGood.length - 10)) :=
  (mediaAuthenticate_mac_spec toyMedia toyMediaKey toyMacKey toyIv toyBlobGood
    (by decide) (by decide) (by decide) (by decide)).1.mpr (by decide)

/-- C9: every fetched blob of length at most 10 bytes (with well-formed
metadata) is rejected with the length-violation error; the outcome is
independent of the MAC primitive and of the decryptor, which are never
consulted. -/
theorem smallBlob_spec (M : MediaPrims)
    (cbc : List Byte → List Byte → List Byte → Option (List Byte))
    (keyBuf macKeyBuf ivBuf : List Byte) (eh ph : Option String)
    (encBuf : List Byte)
    (hk : keyBuf.length = 32) (hmk : macKeyBuf.length = 32)
    (hiv : ivBuf.length = 16) (hlen : encBuf.length ≤ 10) :
    decryptWhatsAppImage M cbc keyBuf macKeyBuf ivBuf eh ph encBuf
      = .error .tooSmall := by
  unfold decryptWhatsAppImage mediaAuthenticate
  rw [if_neg (by omega), if_neg (by omega), if_neg (by omega), if_pos hlen]

/-- Witness for C9: a 9-byte blob is rejected, under both a succeeding and a
failing decryptor. -/
theorem smallBlob_spec_witness :
    decryptWhatsAppImage toyMedia toyCbcNone toyMediaKey toyMacKey toyIv
        none none toyBlob9 = .error .tooSmall :=
  smallBlob_spec toyMedia toyCbcNone toyMediaKey toyMacKey toyIv none none
    toyBlob9 (by decide) (by decide) (by decide) (by decide)

/-- C8: a correctly authenticated ciphertext whose length is not a multiple
of 16 is rejected with the length error before any AES-CBC decryption (the
outcome is the same for every decryptor), and the decryption stage rejects
every such ciphertext. -/
theorem ctLength_spec (M : MediaPrims)
    (keyBuf macKeyBuf ivBuf : List Byte) (ph : Option String)
    (encBuf : List Byte)
    (hk : keyBuf.length = 32) (hmk : macKeyBuf.length = 32)
    (hiv : ivBuf.length = 16) (hlen : 10 < encBuf.length)
    (hmac : (M.hmacSha256 macKeyBuf
          (ivBuf ++ encBuf.take (encBuf.length - 10))).take 10
        = encBuf.drop (encBuf.length - 10))
    (hct : (encBuf.length - 10) % 16 ≠ 0) :
    (∀ cbc, decryptWhatsAppImage M cbc keyBuf macKeyBuf ivBuf none ph encBuf
        = .error .badCtLength) ∧
    (∀ cbc ct, ct.length % 16 ≠ 0 →
      mediaDecrypt cbc keyBuf ivBuf ct = .error .badCtLength) := by
  have hstage : ∀ cbc ct, ct.length % 16 ≠ 0 →
      mediaDecrypt cbc keyBuf ivBuf ct = .error .badCtLength := by
    intro cbc ct h
    unfold mediaDecrypt
    rw [if_pos h]
  refine ⟨?_, hstage⟩
  intro cbc
  unfold decryptWhatsAppImage
  rw [mediaAuthenticate_reduce M keyBuf macKeyBuf ivBuf encBuf hk hmk hiv hlen]
  unfold macCheck
  rw [if_pos hmac]
  exact hstage cbc _ (by simp [List.length_take]; omega)

/-- Witness for C8: a MAC-valid 27-byte blob, hence an authenticated 17-byte
ciphertext, is rejected with the length error. -/
theorem ctLength_spec_witness :
    decryptWhatsAppImage toyMedia toyCbc toyMediaKey toyMacKey toyIv
        none none toyBlob17 = .error .badCtLength :=
  (ctLength_spec toyMedia toyMediaKey toyMacKey toyIv none toyBlob17
    (by decide) (by decide) (by decide) (by decide) (by decide)
    (by decide)).1 toyCbc

/-- C5 counterexample: a blob whose 10-byte MAC trailer verifies (and whose
decryption would succeed when no optional hash is supplied) is nevertheless
rejected when a mismatching `encrypted_hash` is supplied: the mismatch is a
rejection, not a warning. -/
theorem encHash_rejects_counterexample :
    decryptWhatsAppImage toyMedia toyCbc toyMediaKey toyMacKey toyIv
        (some "nope") none toyBlobGood = .error .encHashMismatch ∧
    decryptWhatsAppImage toyMedia toyCbc toyMediaKey toyMacKey toyIv
        none none toyBlobGood = .ok toyCt :=
  ⟨rfl, rfl⟩

/-- C5 amended: when a (truthy) `encrypted_hash` is supplied,
`decryptWhatsAppImage` compares it with the computed SHA-256 of the fetched
blob before the MAC check: a mismatch is a rejection with the hash-mismatch
error (for every decryptor), while a match leaves the outcome exactly as if
no hash had been supplied.  Only the optional `plaintext_hash` is a pure
warning with no effect on the result. -/
theorem encHash_spec (M : MediaPrims)
    (cbc : List Byte → List Byte → List Byte → Option (List Byte))
    (keyBuf macKeyBuf ivBuf : List Byte) (h : String) (ph : Option String)
    (encBuf : List Byte)
    (hk : keyBuf.length = 32) (hmk : macKeyBuf.length = 32)
    (hiv : ivBuf.length = 16) (hlen : 10 < encBuf.length) (hne : h ≠ "") :
    (M.sha256b64 encBuf ≠ h →
      decryptWhatsAppImage M cbc keyBuf macKeyBuf ivBuf (some h) ph encBuf
        = .error .encHashMismatch) ∧
    (M.sha256b64 encBuf = h →
      decryptWhatsAppImage M cbc keyBuf macKeyBuf ivBuf (some h) ph encBuf
        = decryptWhatsAppImage M cbc keyBuf macKeyBuf ivBuf none ph encBuf) ∧
    (∀ p₁ p₂,
      decryptWhatsAppImage M cbc keyBuf macKeyBuf ivBuf (some h) p₁ encBuf
        = decryptWhatsAppImage M cbc keyBuf macKeyBuf ivBuf (some h) p₂ encBuf) := by
  have hred : mediaAuthenticate M keyBuf macKeyBuf ivBuf (some h) encBuf
      = if M.sha256b64 encBuf = h then macCheck M macKeyBuf ivBuf encBuf
        else .error .encHashMismatch := by
    unfold mediaAuthenticate
    rw [if_neg (by omega), if_neg (by omega), if_neg (by omega),
      if_neg (by omega), if_neg (by simp [strFalsy, hne])]
    rfl
  refine ⟨?_, ?_, fun p₁ p₂ => rfl⟩
  · intro hmis
    unfold decryptWhatsAppImage
    rw [hred, if_neg hmis]
  · intro hmatch
    unfold decryptWhatsAppImage
    rw [hred, if_pos hmatch,
      mediaAuthenticate_reduce M keyBuf macKeyBuf ivBuf encBuf hk hmk hiv hlen]

/-- Witness for the amended C5: with the matching hash the outcome equals the
no-hash outcome, and the plaintext-hash argument never changes the result. -/
theorem encHash_spec_witness :
    (toyMedia.sha256b64 toyBlobGood ≠ "26" →
      decryptWhatsAppImage toyMedia toyCbc toyMediaKey toyMacKey toyIv
          (some "26") none toyBlobGood = .error .encHashMismatch) ∧
    (toyMedia.sha256b64 toyBlobGood = "26" →
      decryptWhatsAppImage toyMedia toyCbc toyMediaKey toyMacKey toyIv
          (some "26") none toyBlobGood
        = decryptWhatsAppImage toyMedia toyCbc toyMediaKey toyMacKey toyIv
            none none toyBlobGood) ∧
    (∀ p₁ p₂,
      decryptWhatsAppImage toyMedia toyCbc toyMediaKey toyMacKey toyIv
          (some "26") p₁ toyBlobGood
        = decryptWhatsAppImage toyMedia toyCbc toyMediaKey toyMacKey toyIv
            (some "26") p₂ toyBlobGood) :=
  encHash_spec toyMedia toyCbc toyMediaKey toyMacKey toyIv "26" none
    toyBlobGood (by decide) (by decide) (by decide) (by decide) (by decide)

/-- C4: AES-CBC media decryption never runs on a blob whose MAC trailer has
not verified.  (i) Whenever the 10-byte MAC comparison fails, the pipeline
rejects with the MAC error and the outcome is identical for every decryptor:
there is no fallback path that decrypts anyway.  (ii) Flipping any single bit
of the trailer of a MAC-valid blob makes the comparison fail, so the flipped
blob is rejected before any decryption step, for every decryptor.
(iii) Likewise a single-bit flip inside cipherText is rejected before any
decryption, given that the flip changes the truncated HMAC away from the
(unchanged) trailer — which holds for HMAC-SHA256 except with negligible
probability, and is exactly what the completed MAC comparison checks. -/
theorem mac_before_decrypt (M : MediaPrims)
    (keyBuf macKeyBuf ivBuf : List Byte) (ph : Option String)
    (encBuf : List Byte)
    (hk : keyBuf.length = 32) (hmk : macKeyBuf.length = 32)
    (hiv : ivBuf.length = 16) (hlen : 10 < encBuf.length) :
    ((M.hmacSha256 macKeyBuf
          (ivBuf ++ encBuf.take (encBuf.length - 10))).take 10
        ≠ encBuf.drop (encBuf.length - 10) →
      ∀ cbc₁ cbc₂ : List Byte → List Byte → List Byte → Option (List Byte),
        decryptWhatsAppImage M cbc₁ keyBuf macKeyBuf ivBuf none ph encBuf
          = .error .hmacFailed ∧
        decryptWhatsAppImage M cbc₁ keyBuf macKeyBuf ivBuf none ph encBuf
          = decryptWhatsAppImage M cbc₂ keyBuf macKeyBuf ivBuf none ph encBuf) ∧
    ((M.hmacSha256 macKeyBuf
          (ivBuf ++ encBuf.take (encBuf.length - 10))).take 10
        = encBuf.drop (encBuf.length - 10) →
      ∀ j k, encBuf.length - 10 ≤ j → j < encBuf.length →
      ∀ cbc : List Byte → List Byte → List Byte → Option (List Byte),
        decryptWhatsAppImage M cbc keyBuf macKeyBuf ivBuf none ph
            (flipBitAt encBuf j k)
          = .error .hmacFailed) ∧
    (∀ j k, j < encBuf.length - 10 →
      (M.hmacSha256 macKeyBuf (ivBuf ++
            (flipBitAt encBuf j k).take ((flipBitAt encBuf j k).length - 10))).take 10
        ≠ (flipBitAt encBuf j k).drop ((flipBitAt encBuf j k).length - 10) →
      ∀ cbc : List Byte → List Byte → List Byte → Option (List Byte),
        decryptWhatsAppImage M cbc keyBuf macKeyBuf ivBuf none ph
            (flipBitAt encBuf j k)
          = .error .hmacFailed) := by
  refine ⟨?_, ?_, ?_⟩
  · intro hne cbc₁ cbc₂
    have h1 := decryptWhatsAppImage_macFail M cbc₁ keyBuf macKeyBuf ivBuf ph
      encBuf hk hmk hiv hlen hne
    have h2 := decryptWhatsAppImage_macFail M cbc₂ keyBuf macKeyBuf ivBuf ph
      encBuf hk hmk hiv hlen hne
    exact ⟨h1, h1.trans h2.symm⟩
  · intro hvalid j k hj1 hj2 cbc
    have hlenf : (flipBitAt encBuf j k).length = encBuf.length :=
      flipBitAt_length encBuf j k
    apply decryptWhatsAppImage_macFail M cbc keyBuf macKeyBuf ivBuf ph
      (flipBitAt encBuf j k) hk hmk hiv (by omega)
    rw [hlenf, flipBitAt_eq_set encBuf j k hj2]
    have htake : (encBuf.set j (xorBit encBuf[j] k)).take (encBuf.length - 10)
        = encBuf.take (encBuf.length - 10) :=
      take_set_of_le _ encBuf j (encBuf.length - 10) hj1
    have hdrop : (encBuf.set j (xorBit encBuf[j] k)).drop (encBuf.length - 10)
        = (encBuf.drop (encBuf.length - 10)).set (j - (encBuf.length - 10))
            (xorBit encBuf[j] k) :=
      drop_set_of_le _ encBuf j (encBuf.length - 10) hj1
    rw [htake, hdrop, hvalid]
    have hidx : j - (encBuf.length - 10)
        < (encBuf.drop (encBuf.length - 10)).length := by
      rw [List.length_drop]
      omega
    have hgd : (encBuf.drop (encBuf.length - 10))[j - (encBuf.length - 10)]?
        = encBuf[j]? := by
      rw [List.getElem?_drop]
      congr 1
      omega
    have hgd2 : (encBuf.drop (encBuf.length - 10)).get
          ⟨j - (encBuf.length - 10), hidx⟩ = encBuf[j] := by
      have ha := hgd
      rw [List.getElem?_eq_getElem hidx, List.getElem?_eq_getElem hj2] at ha
      simpa [List.get_eq_getElem] using ha
    refine (set_ne_of_ne _ _ _ hidx ?_).symm
    rw [show (encBuf.drop (encBuf.length - 10))[j - (encBuf.length - 10)]
          = (encBuf.drop (encBuf.length - 10)).get
              ⟨j - (encBuf.length - 10), hidx⟩ from rfl, hgd2]
    exact xorBit_ne _ k
  · intro j k hj hne cbc
    have hlenf : (flipBitAt encBuf j k).length = encBuf.length :=
      flipBitAt_length encBuf j k
    exact decryptWhatsAppImage_macFail M cbc keyBuf macKeyBuf ivBuf ph
      (flipBitAt encBuf j k) hk hmk hiv (by omega) hne

/-- Witness for C4: a concrete MAC-invalid blob is rejected before any
decryption, and so is the MAC-valid blob after one bit of its trailer (byte
20, bit 0) is flipped. -/
theorem mac_before_decrypt_witness :
    decryptWhatsAppImage toyMedia toyCbc toyMediaKey toyMacKey toyIv none none
        toyBlobBad = .error .hmacFailed ∧
    decryptWhatsAppImage toyMedia toyCbc toyMediaKey toyMacKey toyIv none none
        (flipBitAt toyBlobGood 20 0) = .error .hmacFailed :=
  ⟨((mac_before_decrypt toyMedia toyMediaKey toyMacKey toyIv none toyBlobBad
      (by decide) (by decide) (by decide) (by decide)).1 (by decide)
      toyCbc toyCbcNone).1,
   (mac_before_decrypt toyMedia toyMediaKey toyMacKey toyIv none toyBlobGood
      (by decide) (by decide) (by decide) (by decide)).2.1 (by decide) 20 0
      (by decide) (by decide) toyCbc⟩

end Webhook
